import Mathlib

/-!
A shallow embedding of `src/namespace.rs` (blazesym's mount-namespace
switching core) and proofs of the specified properties.

The embedding models:
  * the status parser `get_nspid`, which scans `/proc/<pid>/status` lines
    for the `Tgid:` and `NStgid:` keys;
  * the namespace context `NsInfo` with its constructor `new`, the
    operations `enter_mntns`, `pid`, and the `Drop` implementation.

Strings are modelled as lists of characters (`RStr`); Rust's string
primitives `str::contains`, `str::split` (with a string pattern, yielding
the parts between non-overlapping left-to-right matches) and
`str::split_whitespace` are reimplemented on that representation.

Ambient OS state mutated by the code (the calling thread's mount-namespace
identity and its current working directory) is modelled by `ThreadState`;
the outcome of each syscall is prescribed by an oracle `Env`.  The
`unreachable!` and `panic!` macros are modelled by the `Outcome.panicked`
result; `Drop` additionally produces a trace of `Event`s so that ordering
and reporting properties can be stated.
-/

/-- Rust strings, modelled as lists of characters. -/
abbrev RStr := List Char

/-- Process ids.  `blazesym`'s `Pid` wraps an unsigned integer. -/
abbrev Pid := Nat

/-- Inode numbers, used as the identity of a mount-namespace object. -/
abbrev Ino := Nat

/-- `char::is_whitespace` for our purposes (Unicode whitespace). -/
def isWS (c : Char) : Bool := c.isWhitespace

/-- Helper for `splitWhitespaceL`: accumulate the current (reversed) token
while scanning the string.  Mirrors Rust's `str::split_whitespace`, which
yields the maximal non-empty runs of non-whitespace characters. -/
def tokensAux : RStr → RStr → List RStr
  | [], acc => if acc = [] then [] else [acc.reverse]
  | c :: cs, acc =>
      if isWS c then
        if acc = [] then tokensAux cs []
        else acc.reverse :: tokensAux cs []
      else tokensAux cs (c :: acc)

/-- Rust's `str::split_whitespace`, collected into a list. -/
def splitWhitespaceL (s : RStr) : List RStr := tokensAux s []

/-- `p` is a prefix of `s` (decidable, by direct recursion). -/
def isPrefixL : RStr → RStr → Bool
  | [], _ => true
  | _ :: _, [] => false
  | p :: ps, c :: cs => p == c && isPrefixL ps cs

/-- `pat` occurs as a contiguous substring of `s`. -/
def occursL (pat : RStr) : RStr → Bool
  | [] => isPrefixL pat []
  | c :: cs => isPrefixL pat (c :: cs) || occursL pat cs

/-- Fuel-driven worker for `splitOnL`.  Scans `s` left to right; on each
non-overlapping match of `pat` the accumulated part is emitted and the
match is consumed.  One unit of fuel is spent per examined character, so
`s.length` fuel suffices whenever `pat` is non-empty. -/
def splitOnFuelL (pat : RStr) : Nat → RStr → RStr → List RStr
  | _, [], acc => [acc.reverse]
  | 0, s, acc => [acc.reverse ++ s]
  | fuel + 1, c :: cs, acc =>
      if isPrefixL pat (c :: cs) then
        acc.reverse :: splitOnFuelL pat fuel (List.drop pat.length (c :: cs)) []
      else
        splitOnFuelL pat fuel cs (c :: acc)

/-- Rust's `str::split` with a string pattern, collected into a list: the
parts of `s` between the non-overlapping left-to-right matches of `pat`.
(The code only ever uses the non-empty patterns `"Tgid:"` and
`"NStgid:"`.) -/
def splitOnL (pat s : RStr) : List RStr := splitOnFuelL pat s.length s []

/-- Rust's `str::contains` with a string pattern, expressed — exactly as
the scanning loop observes it — through the number of parts `split`
produces. -/
def containsL (s pat : RStr) : Bool := (splitOnL pat s).length != 1

/-- `line.split(pat).last().and_then(|s| s.split_whitespace().next_back())`:
the last whitespace-separated token of the part of `line` after the last
match of `pat`. -/
def lastTokenAfter (line pat : RStr) : Option RStr :=
  (splitOnL pat line).getLast?.bind fun s => (splitWhitespaceL s).getLast?

/-- The pattern `"Tgid:"`. -/
def tgidKey : RStr := ['T', 'g', 'i', 'd', ':']

/-- The pattern `"NStgid:"`. -/
def nstgidKey : RStr := ['N', 'S', 't', 'g', 'i', 'd', ':']

/-- Modelled from the spec: the `Pid`-from-string conversion (`num.into()`)
lives in the crate root, outside the provided sources; the spec says the
token is "parsed as an unsigned integer", which for a digit string is its
base-10 value. -/
def pidOfToken (s : RStr) : Pid :=
  s.foldl (fun n c => n * 10 + (c.toNat - 48)) 0

/-- Result of a fallible Rust computation: `Ok`, a recoverable `Err`, or a
panic/abort (`unreachable!` / `panic!` / a failed `unwrap`). -/
inductive Outcome (α : Type) where
  | ok (a : α)
  | err
  | panicked
deriving DecidableEq, Repr

/-- The mutable state of `get_nspid`'s scanning loop. -/
structure GnState where
  tgid : Pid
  nstgid : Pid
  found : Bool
deriving DecidableEq, Repr

/-- One iteration of `get_nspid`'s loop body on a successfully read line.
Returns the updated state and whether the loop `break`s. -/
def gnLine (st : GnState) (line : RStr) : GnState × Bool :=
  let st1 :=
    if containsL line tgidKey then
      match lastTokenAfter line tgidKey with
      | some num =>
          { tgid := pidOfToken num, nstgid := pidOfToken num, found := true }
      | none => st
    else st
  if containsL line nstgidKey then
    match lastTokenAfter line nstgidKey with
    | some num => ({ st1 with nstgid := pidOfToken num }, true)
    | none => (st1, false)
  else (st1, false)

/-- The `for line in reader.lines()` loop of `get_nspid`.  A `none` entry
models a line whose read failed (`Err(e) => return Err(e.into())`).  On a
`break` the unconsumed suffix of the line list is returned alongside the
final state, so that "scanning stops" is observable. -/
def gnLoop : List (Option RStr) → GnState → Except Unit (GnState × List (Option RStr))
  | [], st => .ok (st, [])
  | none :: _, _ => .error ()
  | some l :: rest, st =>
      let (st1, brk) := gnLine st l
      if brk then .ok (st1, rest) else gnLoop rest st1

/-- A `/proc/<pid>/status` record as the code observes it: whether the
`File::open` succeeds, and the sequence of line-read results. -/
structure StatusRecord where
  openOk : Bool
  lines : List (Option RStr)

/-- `get_nspid`: open the status record, scan for `Tgid:` / `NStgid:`,
and — exactly as in the source — hit `unreachable!` (modelled as
`Outcome.panicked`) if `Tgid:` was never found. -/
def get_nspid (pid : Pid) (sr : StatusRecord) : Outcome (Pid × Pid) :=
  if sr.openOk = false then .err
  else
    match gnLoop sr.lines { tgid := pid, nstgid := pid, found := false } with
    | .error _ => .err
    | .ok (st, _) =>
        if st.found = false then .panicked
        else .ok (st.tgid, st.nstgid)

/-- The ambient OS state the code mutates: the calling thread's
mount-namespace identity (the inode number of its `/proc/self/ns/mnt`
object) and its current working directory. -/
structure ThreadState where
  mntns : Ino
  cwd : RStr
deriving DecidableEq, Repr

/-- The root directory `"/"`: per the kernel commit cited in the source,
`setns(CLONE_NEWNS)` resets the calling thread's working directory to it. -/
def rootPath : RStr := ['/']

/-- Oracle prescribing the outcome of every OS interaction the code
performs; it lets each syscall failure mode be exercised. -/
structure Env where
  /-- does `fs::metadata("/proc/self/ns/mnt")` succeed? -/
  statOldOk : Bool
  /-- `fs::metadata("/proc/<pid>/ns/mnt")`: the target's mount-namespace
  inode number, or `none` if the stat fails. -/
  targetMntIno : Option Ino
  /-- does `File::open("/proc/self/ns/mnt")` succeed? -/
  openOldOk : Bool
  /-- does `env::current_dir()` succeed? -/
  cwdOk : Bool
  /-- the target's `/proc/<pid>/status` record. -/
  statusRec : StatusRecord
  /-- `File::open` on a namespace path: the inode of the namespace object
  the resulting file refers to, or `none` if the open fails. -/
  openNs : RStr → Option Ino
  /-- does `setns(fd, CLONE_NEWNS)` succeed for a file referring to the
  given namespace object? -/
  setnsOk : Ino → Bool
  /-- does `env::set_current_dir(dir)` succeed? -/
  chdirOk : RStr → Bool

/-- The fields of `struct NsInfo`.  The `oldns : File` handle is modelled
by the inode number of the namespace object it refers to. -/
structure NsInfo where
  tgid : Pid
  nstgid : Pid
  need_setns : Bool
  mntns_path : Option RStr
  oldns : Ino
  oldcwd : RStr
deriving DecidableEq, Repr

/-- The path `"/proc/<pid>/ns/mnt"`. -/
def procNsMntPath (pid : Pid) : RStr :=
  ['/', 'p', 'r', 'o', 'c', '/'] ++ Nat.toDigits 10 pid ++
    ['/', 'n', 's', '/', 'm', 'n', 't']

/-- `NsInfo::new`, step for step: stat the caller's and the target's
mount-namespace objects, retain a handle to the caller's namespace and
snapshot its working directory, run the status parser, then compare the
two inode numbers to decide `need_setns` and retain the target's path
exactly when a switch is needed.  A `panicked` from `get_nspid`
propagates (a Rust panic unwinds through the caller). -/
def NsInfo.new (pid : Pid) (env : Env) (st : ThreadState) : Outcome NsInfo :=
  if env.statOldOk = false then .err
  else
    match env.targetMntIno with
    | none => .err
    | some newIno =>
        if env.openOldOk = false then .err
        else if env.cwdOk = false then .err
        else
          match get_nspid pid env.statusRec with
          | .err => .err
          | .panicked => .panicked
          | .ok (tgid, nstgid) =>
              let need_setns := st.mntns != newIno
              .ok { tgid := tgid, nstgid := nstgid, need_setns := need_setns,
                    mntns_path :=
                      if need_setns then some (procNsMntPath pid) else none,
                    oldns := st.mntns, oldcwd := st.cwd }

/-- `NsInfo::enter_mntns` as a transformer of the ambient thread state.
When `need_setns` is false it is a successful no-op.  Otherwise the stored
path is `unwrap`ped (a `none` there would panic), opened, and `setns` is
attempted; on success the thread's namespace becomes the target's and its
working directory is reset to `/` by the kernel. -/
def NsInfo.enter_mntns (info : NsInfo) (env : Env) (st : ThreadState) :
    Outcome Unit × ThreadState :=
  if info.need_setns = false then (.ok (), st)
  else
    match info.mntns_path with
    | none => (.panicked, st)
    | some path =>
        match env.openNs path with
        | none => (.err, st)
        | some newIno =>
            if env.setnsOk newIno = false then (.err, st)
            else (.ok (), { mntns := newIno, cwd := rootPath })

/-- `NsInfo::pid`. -/
def NsInfo.pid (info : NsInfo) : Pid :=
  if info.need_setns then info.nstgid else info.tgid

/-- Observable actions of the `Drop` implementation.  `reportEv` is the
vocabulary for logging/reporting an error; the drop glue never emits it,
which is itself an observable fact. -/
inductive Event where
  | setnsEv (target : Ino)
  | chdirEv (dir : RStr)
  | reportEv (msg : RStr)
deriving DecidableEq, Repr

/-- `impl Drop for NsInfo`, as a transformer of the ambient thread state
that also records the trace of actions it performs.  When `need_setns` is
false it does nothing.  Otherwise it calls `setns` on the saved handle to
the original namespace — panicking if that fails — and then attempts,
best-effort with the error discarded (`let _ = ...`), to change back to
the saved working directory. -/
def NsInfo.dropRun (info : NsInfo) (env : Env) (st : ThreadState) :
    Outcome Unit × ThreadState × List Event :=
  if info.need_setns = false then (.ok (), st, [])
  else
    if env.setnsOk info.oldns = false then
      (.panicked, st, [.setnsEv info.oldns])
    else
      let st1 : ThreadState := { mntns := info.oldns, cwd := rootPath }
      if env.chdirOk info.oldcwd = false then
        (.ok (), st1, [.setnsEv info.oldns, .chdirEv info.oldcwd])
      else
        (.ok (), { st1 with cwd := info.oldcwd },
          [.setnsEv info.oldns, .chdirEv info.oldcwd])

/-- Boolean discriminator for report events. -/
def Event.isReport : Event → Bool
  | .reportEv _ => true
  | _ => false

/-- Inversion principle for a successful `NsInfo::new`: the constructed
context saved the caller's namespace identity and working directory, its
`need_setns` flag is the inode comparison, its path field is populated
exactly when a switch is needed, and its pids are the parser's output. -/
theorem NsInfo.new_ok_fields {pid : Pid} {env : Env} {st : ThreadState}
    {info : NsInfo} (h : NsInfo.new pid env st = .ok info) :
    info.oldns = st.mntns ∧ info.oldcwd = st.cwd ∧
    ∃ newIno, env.targetMntIno = some newIno ∧
      info.need_setns = (st.mntns != newIno) ∧
      info.mntns_path =
        (if st.mntns != newIno then some (procNsMntPath pid) else none) ∧
      ∃ t n, get_nspid pid env.statusRec = .ok (t, n) ∧
        info.tgid = t ∧ info.nstgid = n := by
  unfold NsInfo.new at h
  split at h
  · exact Outcome.noConfusion h
  · split at h
    · exact Outcome.noConfusion h
    · rename_i newIno hino
      split at h
      · exact Outcome.noConfusion h
      · split at h
        · exact Outcome.noConfusion h
        · split at h
          · exact Outcome.noConfusion h
          · exact Outcome.noConfusion h
          · rename_i t n hgn
            injection h with h
            subst h
            refine ⟨rfl, rfl, newIno, hino, rfl, ?_, t, n, hgn, rfl, rfl⟩
            by_cases hc : st.mntns != newIno <;> simp [hc]

/-- C1 failing input: a status record that opens and reads fine but holds
no `Tgid:` line. -/
def c1Rec : StatusRecord :=
  { openOk := true, lines := [some ['N', 'a', 'm', 'e', ':', '\t', 'f', 'o', 'o']] }

/-- C1: on a readable status record with no `Tgid` line, `get_nspid` hits
`unreachable!` — i.e. it panics instead of returning the recoverable
not-found error the spec mandates. -/
theorem c1_missing_tgid_panics : get_nspid 1 c1Rec = .panicked := by decide

/-- C3: on exit with `need_setns` true, if re-associating with the saved
original mount namespace fails, `Drop` panics rather than returning or
continuing. -/
theorem c3_restore_failure_escalates (info : NsInfo) (env : Env)
    (st : ThreadState) (h : info.need_setns = true)
    (hfail : env.setnsOk info.oldns = false) :
    (info.dropRun env st).1 = .panicked := by
  simp [NsInfo.dropRun, h, hfail]

/-- C3 witness. -/
def dropInfo : NsInfo :=
  { tgid := 4, nstgid := 1, need_setns := true,
    mntns_path := some (procNsMntPath 4), oldns := 10,
    oldcwd := ['/', 't', 'm', 'p'] }

def dropFailEnv : Env :=
  { statOldOk := true, targetMntIno := some 11, openOldOk := true,
    cwdOk := true, statusRec := { openOk := true, lines := [] },
    openNs := fun _ => some 11, setnsOk := fun _ => false,
    chdirOk := fun _ => true }

theorem c3_restore_failure_escalates_witness :
    (dropInfo.dropRun dropFailEnv { mntns := 11, cwd := rootPath }).1 = .panicked :=
  c3_restore_failure_escalates dropInfo dropFailEnv _ (by decide) (by decide)

/-- C4: on every exit with `need_setns` true, any restore of the working
directory in the drop trace is strictly preceded by the restore of the
original mount namespace. -/
theorem c4_setns_before_chdir (info : NsInfo) (env : Env) (st : ThreadState)
    (h : info.need_setns = true) :
    ∀ i d, ((info.dropRun env st).2.2).get? i = some (.chdirEv d) →
      ∃ j, j < i ∧
        ((info.dropRun env st).2.2).get? j = some (.setnsEv info.oldns) := by
  intro i d hd
  simp only [NsInfo.dropRun, h] at hd ⊢
  by_cases hs : env.setnsOk info.oldns = false
  · simp only [hs, if_true] at hd ⊢
    match i, hd with
    | 0, hd => exact absurd hd (by simp)
    | n + 1, hd => exact absurd hd (by simp [List.get?])
  · simp only [hs, if_false] at hd ⊢
    by_cases hc : env.chdirOk info.oldcwd = false <;>
      simp only [hc, if_true, if_false] at hd ⊢ <;>
      match i, hd with
      | 1, _ => exact ⟨0, by omega, by simp⟩
      | 0, hd => exact absurd hd (by simp)
      | n + 2, hd => exact absurd hd (by simp [List.get?])

/-- An environment in which restoring the namespace succeeds but restoring
the working directory fails. -/
def chdirFailEnv : Env :=
  { statOldOk := true, targetMntIno := some 11, openOldOk := true,
    cwdOk := true, statusRec := { openOk := true, lines := [] },
    openNs := fun _ => some 11, setnsOk := fun _ => true,
    chdirOk := fun _ => false }

/-- C5 counterexample: with `need_setns` true, a successful namespace
restore and a failing working-directory restore, `Drop` returns normally
(no escalation) but its trace contains no report/log event: the failure is
silently discarded (`let _ = set_current_dir(..)`), contradicting the
claim that it is "reported/logged rather than silently swallowed". -/
theorem c5_counterexample :
    (dropInfo.dropRun chdirFailEnv { mntns := 11, cwd := rootPath }).1 = .ok () ∧
    ((dropInfo.dropRun chdirFailEnv { mntns := 11, cwd := rootPath }).2.2).all
      (fun e => ! e.isReport) = true := by decide

/-- C5 (amended): after a successful namespace restore, a failure to
restore the saved working directory is recoverable — `Drop` returns
normally, never panicking — but the failure is silently discarded: no
report/log event is emitted and the working directory is left at `/`. -/
theorem c5_chdir_failure_recoverable (info : NsInfo) (env : Env)
    (st : ThreadState) (h : info.need_setns = true)
    (hsetns : env.setnsOk info.oldns = true)
    (hchdir : env.chdirOk info.oldcwd = false) :
    (info.dropRun env st).1 = .ok () ∧
    ((info.dropRun env st).2.2).all (fun e => ! e.isReport) = true ∧
    (info.dropRun env st).2.1 = { mntns := info.oldns, cwd := rootPath } := by
  simp [NsInfo.dropRun, h, hsetns, hchdir, Event.isReport]

theorem c5_chdir_failure_recoverable_witness :
    (dropInfo.dropRun chdirFailEnv { mntns := 11, cwd := rootPath }).1 = .ok () ∧
    ((dropInfo.dropRun chdirFailEnv { mntns := 11, cwd := rootPath }).2.2).all
      (fun e => ! e.isReport) = true ∧
    (dropInfo.dropRun chdirFailEnv { mntns := 11, cwd := rootPath }).2.1 =
      { mntns := 10, cwd := rootPath } :=
  c5_chdir_failure_recoverable dropInfo chdirFailEnv _ (by decide) (by decide)
    (by decide)

/-- C7: for a constructed context, the `pid` accessor returns the
namespace-local id (`nstgid`, the parser's second component) when
`need_setns` is true, and the host-visible id (`tgid`, the first
component) when it is false. -/
theorem c7_pid_accessor {pid : Pid} {env : Env} {st : ThreadState}
    {info : NsInfo} {t n : Pid} (hnew : NsInfo.new pid env st = .ok info)
    (hgn : get_nspid pid env.statusRec = .ok (t, n)) :
    (info.need_setns = true → info.pid = n) ∧
    (info.need_setns = false → info.pid = t) := by
  obtain ⟨-, -, _, -, -, -, t', n', hgn', ht, hn⟩ := NsInfo.new_ok_fields hnew
  rw [hgn] at hgn'
  injection hgn' with h
  injection h with h1 h2
  constructor
  · intro hns
    simp [NsInfo.pid, hns, hn, h2]
  · intro hns
    simp [NsInfo.pid, hns, ht, h1]

def selfStatusRec : StatusRecord :=
  { openOk := true,
    lines := [some (tgidKey ++ ['\t', '4', '2']),
              some (nstgidKey ++ ['\t', '7'])] }

/-- An environment where the target lives in a different mount namespace
(inode 5 vs the caller's 3). -/
def switchEnv : Env :=
  { statOldOk := true, targetMntIno := some 5, openOldOk := true,
    cwdOk := true, statusRec := selfStatusRec,
    openNs := fun _ => some 5, setnsOk := fun _ => true,
    chdirOk := fun _ => true }

def st0 : ThreadState := { mntns := 3, cwd := ['/', 't', 'm', 'p'] }

/-- The context `NsInfo::new` builds in `switchEnv` from `st0`. -/
def switchInfo : NsInfo :=
  { tgid := 42, nstgid := 7, need_setns := true,
    mntns_path := some (procNsMntPath 9), oldns := 3,
    oldcwd := ['/', 't', 'm', 'p'] }

theorem c7_pid_accessor_witness :
    (switchInfo.need_setns = true → switchInfo.pid = 7) ∧
    (switchInfo.need_setns = false → switchInfo.pid = 42) :=
  @c7_pid_accessor 9 switchEnv st0 switchInfo 42 7 (by decide) (by decide)

/-- C8: for every context returned by construction, `need_setns` equals
the point-in-time comparison of the caller's and the target's
mount-namespace inode numbers made at construction, and `mntns_path` is
populated if and only if `need_setns` is true.  (The embedding is pure:
no later step of the code writes either field, so neither is ever
recomputed.) -/
theorem c8_switch_required_invariant {pid : Pid} {env : Env}
    {st : ThreadState} {info : NsInfo} {newIno : Ino}
    (hnew : NsInfo.new pid env st = .ok info)
    (hino : env.targetMntIno = some newIno) :
    (info.need_setns = true ↔ st.mntns ≠ newIno) ∧
    (info.mntns_path.isSome = true ↔ info.need_setns = true) := by
  obtain ⟨-, -, i', hi', hneed, hpath, -⟩ := NsInfo.new_ok_fields hnew
  rw [hino] at hi'
  injection hi' with hi'
  subst hi'
  constructor
  · rw [hneed]
    simp [bne_iff_ne]
  · rw [hpath, hneed]
    by_cases hc : st.mntns != newIno <;> simp [hc]

theorem c8_switch_required_invariant_witness :
    (switchInfo.need_setns = true ↔ st0.mntns ≠ 5) ∧
    (switchInfo.mntns_path.isSome = true ↔ switchInfo.need_setns = true) :=
  @c8_switch_required_invariant 9 switchEnv st0 switchInfo 5 (by decide)
    (by decide)

/-- C9: when `need_setns` is false, enter succeeds and both enter and exit
leave the thread state untouched; iterating either any number of times is
still the identity on the observable state. -/
theorem c9_noop_idempotent (info : NsInfo) (env : Env) (st : ThreadState)
    (h : info.need_setns = false) :
    info.enter_mntns env st = (.ok (), st) ∧
    info.dropRun env st = (.ok (), st, []) ∧
    (∀ k : Nat, (fun s => (info.enter_mntns env s).2)^[k] st = st) ∧
    (∀ k : Nat, (fun s => (info.dropRun env s).2.1)^[k] st = st) := by
  refine ⟨by simp [NsInfo.enter_mntns, h], by simp [NsInfo.dropRun, h], ?_, ?_⟩
  · intro k
    exact Function.iterate_fixed (by simp [NsInfo.enter_mntns, h]) k
  · intro k
    exact Function.iterate_fixed (by simp [NsInfo.dropRun, h]) k

def noSwitchInfo : NsInfo :=
  { tgid := 42, nstgid := 42, need_setns := false, mntns_path := none,
    oldns := 3, oldcwd := ['/', 't', 'm', 'p'] }

theorem c9_noop_idempotent_witness :
    noSwitchInfo.enter_mntns switchEnv st0 = (.ok (), st0) ∧
    noSwitchInfo.dropRun switchEnv st0 = (.ok (), st0, []) ∧
    (∀ k : Nat, (fun s => (noSwitchInfo.enter_mntns switchEnv s).2)^[k] st0 = st0) ∧
    (∀ k : Nat, (fun s => (noSwitchInfo.dropRun switchEnv s).2.1)^[k] st0 = st0) :=
  c9_noop_idempotent noSwitchInfo switchEnv st0 (by decide)

/-- C10: every context built by `NsInfo::new` has `mntns_path` populated
whenever `need_setns` is true, so the `unwrap` inside `enter_mntns` never
sees `none` and `enter_mntns` can never panic — in any environment and
from any thread state. -/
theorem c10_enter_never_panics {pid : Pid} {env : Env} {st : ThreadState}
    {info : NsInfo} (hnew : NsInfo.new pid env st = .ok info) :
    (info.need_setns = true → info.mntns_path.isSome = true) ∧
    ∀ (env2 : Env) (st2 : ThreadState),
      (info.enter_mntns env2 st2).1 ≠ .panicked := by
  obtain ⟨-, -, i', -, hneed, hpath, -⟩ := NsInfo.new_ok_fields hnew
  have hps : info.need_setns = true → info.mntns_path.isSome = true := by
    intro hns
    rw [hpath]
    rw [hneed] at hns
    simp [hns]
  refine ⟨hps, ?_⟩
  intro env2 st2
  unfold NsInfo.enter_mntns
  by_cases hns : info.need_setns = true
  · rw [if_neg (by simp [hns])]
    obtain ⟨p, hp⟩ := Option.isSome_iff_exists.mp (hps hns)
    rw [hp]
    cases henv : env2.openNs p with
    | none => simp [henv]
    | some newIno =>
        by_cases hs : env2.setnsOk newIno = false <;> simp [henv, hs]
  · simp [hns]

theorem c10_enter_never_panics_witness :
    (switchInfo.need_setns = true → switchInfo.mntns_path.isSome = true) ∧
    ∀ (env2 : Env) (st2 : ThreadState),
      (switchInfo.enter_mntns env2 st2).1 ≠ .panicked :=
  @c10_enter_never_panics 9 switchEnv st0 switchInfo (by decide)

/-- C2: for a constructed context with `need_setns` true whose restoration
syscalls succeed, entering the target mount namespace and then running the
drop glue returns the thread to exactly the namespace identity and working
directory it had before enter was called. -/
theorem c2_round_trip {pid : Pid} {env : Env} {st : ThreadState}
    {info : NsInfo} (hnew : NsInfo.new pid env st = .ok info)
    (hreq : info.need_setns = true)
    (hsetns : env.setnsOk info.oldns = true)
    (hchdir : env.chdirOk info.oldcwd = true) :
    (info.dropRun env (info.enter_mntns env st).2).1 = .ok () ∧
    (info.dropRun env (info.enter_mntns env st).2).2.1 = st := by
  obtain ⟨hons, hocwd, -⟩ := NsInfo.new_ok_fields hnew
  constructor
  · simp [NsInfo.dropRun, hreq, hsetns, hchdir]
  · rw [hons] at hsetns
    rw [hocwd] at hchdir
    simp [NsInfo.dropRun, hreq, hsetns, hchdir, hons, hocwd]

theorem c2_round_trip_witness :
    (switchInfo.dropRun switchEnv (switchInfo.enter_mntns switchEnv st0).2).1 =
      .ok () ∧
    (switchInfo.dropRun switchEnv (switchInfo.enter_mntns switchEnv st0).2).2.1 =
      st0 :=
  @c2_round_trip 9 switchEnv st0 switchInfo (by decide) (by decide) (by decide)
    (by decide)

theorem c4_setns_before_chdir_witness :
    ∃ j, j < 1 ∧
      ((dropInfo.dropRun chdirFailEnv { mntns := 11, cwd := rootPath }).2.2).get? j =
        some (.setnsEv 10) :=
  c4_setns_before_chdir dropInfo chdirFailEnv _ (by decide) 1
    ['/', 't', 'm', 'p'] (by decide)

/-- `p` is a prefix of `p ++ t`. -/
theorem isPrefixL_append_self (p t : RStr) : isPrefixL p (p ++ t) = true := by
  induction p with
  | nil => rfl
  | cons c cs ih => simp [isPrefixL, ih]

/-- If `pat` occurs nowhere in `s`, it is in particular not a prefix, and
it occurs nowhere in any tail. -/
theorem occursL_cons_false {pat : RStr} {c : Char} {cs : RStr}
    (h : occursL pat (c :: cs) = false) :
    isPrefixL pat (c :: cs) = false ∧ occursL pat cs = false := by
  simpa [occursL] using h

/-- Unfolding step of `splitOnFuelL` on a non-empty string with positive
fuel. -/
theorem splitOnFuelL_cons_pos (pat : RStr) (fuel : Nat) (c : Char)
    (cs acc : RStr) (h : 0 < fuel) :
    splitOnFuelL pat fuel (c :: cs) acc =
      if isPrefixL pat (c :: cs) then
        acc.reverse :: splitOnFuelL pat (fuel - 1) (List.drop pat.length (c :: cs)) []
      else splitOnFuelL pat (fuel - 1) cs (c :: acc) := by
  match fuel, h with
  | f + 1, _ => rfl

/-- When `pat` occurs nowhere in `s` and the fuel covers `s`, the worker
returns a single part: the accumulator followed by the rest of `s`. -/
theorem splitOnFuelL_no_occur {pat : RStr} :
    ∀ {s : RStr} (fuel : Nat) (acc : RStr), occursL pat s = false →
      s.length ≤ fuel → splitOnFuelL pat fuel s acc = [acc.reverse ++ s] := by
  intro s
  induction s with
  | nil => intro fuel acc _ _; cases fuel <;> simp [splitOnFuelL]
  | cons c cs ih =>
      intro fuel acc hocc hlen
      obtain ⟨hpre, htail⟩ := occursL_cons_false hocc
      rw [splitOnFuelL_cons_pos pat fuel c cs acc (by simp at hlen; omega)]
      rw [if_neg (by simp [hpre])]
      rw [ih (fuel - 1) (c :: acc) htail (by simp at hlen ⊢; omega)]
      simp

/-- `str::split`: a string not containing the pattern is returned whole. -/
theorem splitOnL_no_occur {pat s : RStr} (h : occursL pat s = false) :
    splitOnL pat s = [s] := by
  simpa using splitOnFuelL_no_occur s.length [] h (Nat.le_refl _)

/-- `str::split` on a string that starts with the (non-empty) pattern and
contains it nowhere else: an empty first part, then the remainder. -/
theorem splitOnL_key_prefix {pat rest : RStr} {p : Char} {ps : RStr}
    (hpat : pat = p :: ps) (h : occursL pat rest = false) :
    splitOnL pat (pat ++ rest) = [[], rest] := by
  subst hpat
  rw [splitOnL]
  rw [show ((p :: ps) ++ rest) = p :: (ps ++ rest) by simp]
  rw [splitOnFuelL_cons_pos _ _ _ _ _ (by simp)]
  rw [show (p :: (ps ++ rest)) = ((p :: ps) ++ rest) by simp]
  rw [if_pos (isPrefixL_append_self (p :: ps) rest)]
  rw [List.drop_left]
  rw [splitOnFuelL_no_occur _ [] h (by simp)]
  simp

/-- Splitting on whitespace distributes over an append whose right part
starts with a whitespace character. -/
theorem tokensAux_append_ws {c : Char} (hc : isWS c = true) (b : RStr) :
    ∀ (a acc : RStr),
      tokensAux (a ++ c :: b) acc = tokensAux a acc ++ tokensAux (c :: b) [] := by
  intro a
  induction a with
  | nil =>
      intro acc
      by_cases hacc : acc = []
      · subst hacc; simp [tokensAux, hc]
      · simp [tokensAux, hc, hacc]
  | cons d ds ih =>
      intro acc
      by_cases hd : isWS d
      · by_cases hacc : acc = []
        · subst hacc; simp [tokensAux, hd, ih]
        · simp [tokensAux, hd, hacc, ih]
      · simp [tokensAux, hd, ih]

/-- A list with a known last element is non-empty. -/
theorem ne_nil_of_getLast?_eq_some {α : Type} {l : List α} {x : α}
    (h : l.getLast? = some x) : l ≠ [] := by
  intro hl; subst hl; simp at h

/-- Does the string start with a whitespace character? -/
def headWS : RStr → Bool
  | [] => false
  | c :: _ => isWS c

/-- The last whitespace-separated token of `a ++ rest` equals the last
token of `rest`, whenever `rest` begins with whitespace and has a token at
all.  This ties the code's "last token after the key" to the spec's "last
token on the line". -/
theorem lastToken_append_ws {rest : RStr} {tok : RStr} (a : RStr)
    (hw : headWS rest = true)
    (h : (splitWhitespaceL rest).getLast? = some tok) :
    (splitWhitespaceL (a ++ rest)).getLast? = some tok := by
  match rest, hw with
  | c :: b, hw =>
      have hc : isWS c = true := hw
      simp only [splitWhitespaceL] at h ⊢
      rw [tokensAux_append_ws hc b a []]
      rw [List.getLast?_append_of_ne_nil _ (ne_nil_of_getLast?_eq_some h)]
      exact h

/-- Is this line-read result a successfully read line that mentions
neither the `Tgid:` nor the `NStgid:` key? -/
def okNoKey : Option RStr → Bool
  | some s => !occursL tgidKey s && !occursL nstgidKey s
  | none => false

/-- A line with neither key leaves the scanning state unchanged and does
not break. -/
theorem gnLine_noKey {l : RStr} (st : GnState)
    (ht : occursL tgidKey l = false) (hn : occursL nstgidKey l = false) :
    gnLine st l = (st, false) := by
  have h1 : containsL l tgidKey = false := by
    simp [containsL, splitOnL_no_occur ht]
  have h2 : containsL l nstgidKey = false := by
    simp [containsL, splitOnL_no_occur hn]
  simp [gnLine, h1, h2]

/-- Processing the `Tgid:` line: the line is the key followed by `rest`,
the key occurs nowhere else on it, and `rest`'s last token is `tok`.  Both
`tgid` and `nstgid` are set from `tok`, `found` is set, and the loop does
not break. -/
theorem gnLine_tgid {rest tok : RStr} (st : GnState)
    (hocc : occursL tgidKey rest = false)
    (hno : occursL nstgidKey (tgidKey ++ rest) = false)
    (htok : (splitWhitespaceL rest).getLast? = some tok) :
    gnLine st (tgidKey ++ rest) =
      ({ tgid := pidOfToken tok, nstgid := pidOfToken tok, found := true },
        false) := by
  have hsplit : splitOnL tgidKey (tgidKey ++ rest) = [[], rest] :=
    splitOnL_key_prefix rfl hocc
  have h1 : containsL (tgidKey ++ rest) tgidKey = true := by
    simp [containsL, hsplit]
  have h2 : containsL (tgidKey ++ rest) nstgidKey = false := by
    simp [containsL, splitOnL_no_occur hno]
  have h3 : lastTokenAfter (tgidKey ++ rest) tgidKey = some tok := by
    simp [lastTokenAfter, hsplit, htok]
  simp [gnLine, h1, h2, h3]

/-- Processing the `NStgid:` line: `nstgid` is set from its last token and
the loop breaks. -/
theorem gnLine_nstgid {rest tok : RStr} (st : GnState)
    (hocc : occursL nstgidKey rest = false)
    (hno : occursL tgidKey (nstgidKey ++ rest) = false)
    (htok : (splitWhitespaceL rest).getLast? = some tok) :
    gnLine st (nstgidKey ++ rest) =
      ({ st with nstgid := pidOfToken tok }, true) := by
  have hsplit : splitOnL nstgidKey (nstgidKey ++ rest) = [[], rest] :=
    splitOnL_key_prefix rfl hocc
  have h1 : containsL (nstgidKey ++ rest) tgidKey = false := by
    simp [containsL, splitOnL_no_occur hno]
  have h2 : containsL (nstgidKey ++ rest) nstgidKey = true := by
    simp [containsL, hsplit]
  have h3 : lastTokenAfter (nstgidKey ++ rest) nstgidKey = some tok := by
    simp [lastTokenAfter, hsplit, htok]
  simp [gnLine, h1, h2, h3]

/-- Keyless, successfully read lines are skipped by the scanning loop. -/
theorem gnLoop_skip {pre : List (Option RStr)} (hpre : pre.all okNoKey = true)
    (rest : List (Option RStr)) (st : GnState) :
    gnLoop (pre ++ rest) st = gnLoop rest st := by
  induction pre with
  | nil => rfl
  | cons l ls ih =>
      simp only [List.all_cons, Bool.and_eq_true] at hpre
      obtain ⟨hl, hls⟩ := hpre
      match l, hl with
      | some s, hl =>
          simp only [okNoKey, Bool.and_eq_true, Bool.not_eq_true'] at hl
          obtain ⟨ht, hn⟩ := hl
          rw [List.cons_append, gnLoop, gnLine_noKey st ht hn]
          exact ih hls

/-- A line list consisting only of keyless lines is scanned to the end,
leaving the state untouched. -/
theorem gnLoop_all_noKey {l : List (Option RStr)} (h : l.all okNoKey = true)
    (st : GnState) : gnLoop l st = .ok (st, []) := by
  simpa using gnLoop_skip h [] st

/-- One step of the scanning loop on a successfully read line. -/
theorem gnLoop_cons_some {l : RStr} {st st1 : GnState} {brk : Bool}
    (rest : List (Option RStr)) (h : gnLine st l = (st1, brk)) :
    gnLoop (some l :: rest) st =
      if brk then .ok (st1, rest) else gnLoop rest st1 := by
  rw [gnLoop, h]

/-- C6: for a well-formed status record — keyless lines, then a
`Tgid:` line, keyless lines, then (optionally) an `NStgid:` line —
`get_nspid` returns the last whitespace-separated token of the `Tgid`
line (parsed as an unsigned integer) as `tgid`; `nstgid` is the last
token of the `NStgid` line when present and equals `tgid` when absent;
and the scan stops at the `NStgid` line, leaving the lines after it
unread. -/
theorem c6_get_nspid_parsing (pid : Pid)
    (pre mid post post2 : List (Option RStr)) (tRest nRest tTok nTok : RStr)
    (hpre : pre.all okNoKey = true) (hmid : mid.all okNoKey = true)
    (hpost2 : post2.all okNoKey = true)
    (htr : occursL tgidKey tRest = false)
    (htn : occursL nstgidKey (tgidKey ++ tRest) = false)
    (hnr : occursL nstgidKey nRest = false)
    (hnt : occursL tgidKey (nstgidKey ++ nRest) = false)
    (htw : headWS tRest = true) (hnw : headWS nRest = true)
    (htt : (splitWhitespaceL tRest).getLast? = some tTok)
    (hnn : (splitWhitespaceL nRest).getLast? = some nTok) :
    get_nspid pid
      { openOk := true,
        lines := pre ++ [some (tgidKey ++ tRest)] ++ mid ++
          [some (nstgidKey ++ nRest)] ++ post } =
      .ok (pidOfToken tTok, pidOfToken nTok) ∧
    (splitWhitespaceL (tgidKey ++ tRest)).getLast? = some tTok ∧
    (splitWhitespaceL (nstgidKey ++ nRest)).getLast? = some nTok ∧
    gnLoop (pre ++ [some (tgidKey ++ tRest)] ++ mid ++
        [some (nstgidKey ++ nRest)] ++ post)
      { tgid := pid, nstgid := pid, found := false } =
      .ok ({ tgid := pidOfToken tTok, nstgid := pidOfToken nTok,
             found := true }, post) ∧
    get_nspid pid
      { openOk := true,
        lines := pre ++ [some (tgidKey ++ tRest)] ++ post2 } =
      .ok (pidOfToken tTok, pidOfToken tTok) := by
  have hloop1 :
      gnLoop (pre ++ some (tgidKey ++ tRest) ::
          (mid ++ some (nstgidKey ++ nRest) :: post))
        { tgid := pid, nstgid := pid, found := false } =
      .ok ({ tgid := pidOfToken tTok, nstgid := pidOfToken nTok,
             found := true }, post) := by
    rw [gnLoop_skip hpre, gnLoop_cons_some _ (gnLine_tgid _ htr htn htt)]
    rw [if_neg (by simp)]
    rw [gnLoop_skip hmid, gnLoop_cons_some _ (gnLine_nstgid _ hnr hnt hnn)]
    simp
  have hloop2 :
      gnLoop (pre ++ some (tgidKey ++ tRest) :: post2)
        { tgid := pid, nstgid := pid, found := false } =
      .ok ({ tgid := pidOfToken tTok, nstgid := pidOfToken tTok,
             found := true }, []) := by
    rw [gnLoop_skip hpre, gnLoop_cons_some _ (gnLine_tgid _ htr htn htt)]
    rw [if_neg (by simp)]
    exact gnLoop_all_noKey hpost2 _
  refine ⟨?_, lastToken_append_ws tgidKey htw htt,
    lastToken_append_ws nstgidKey hnw hnn, by simpa using hloop1, ?_⟩
  · simp [get_nspid, hloop1]
  · simp [get_nspid, hloop2]

def nameLine : RStr := ['N', 'a', 'm', 'e', ':', '\t', 'f', 'o', 'o']

def umaskLine : RStr := ['U', 'm', 'a', 's', 'k', ':', '\t', '0', '0', '2', '2']

theorem c6_get_nspid_parsing_witness :
    get_nspid 7
      { openOk := true,
        lines := [some nameLine] ++ [some (tgidKey ++ ['\t', '1', '2', '3'])] ++
          [some umaskLine] ++ [some (nstgidKey ++ ['\t', '5'])] ++
          [some nameLine] } =
      .ok (pidOfToken ['1', '2', '3'], pidOfToken ['5']) ∧
    (splitWhitespaceL (tgidKey ++ ['\t', '1', '2', '3'])).getLast? =
      some ['1', '2', '3'] ∧
    (splitWhitespaceL (nstgidKey ++ ['\t', '5'])).getLast? = some ['5'] ∧
    gnLoop ([some nameLine] ++ [some (tgidKey ++ ['\t', '1', '2', '3'])] ++
        [some umaskLine] ++ [some (nstgidKey ++ ['\t', '5'])] ++
        [some nameLine])
      { tgid := 7, nstgid := 7, found := false } =
      .ok ({ tgid := pidOfToken ['1', '2', '3'], nstgid := pidOfToken ['5'],
             found := true }, [some nameLine]) ∧
    get_nspid 7
      { openOk := true,
        lines := [some nameLine] ++ [some (tgidKey ++ ['\t', '1', '2', '3'])] ++
          [some umaskLine] } =
      .ok (pidOfToken ['1', '2', '3'], pidOfToken ['1', '2', '3']) :=
  c6_get_nspid_parsing 7 [some nameLine] [some umaskLine] [some nameLine]
    [some umaskLine] ['\t', '1', '2', '3'] ['\t', '5'] ['1', '2', '3'] ['5']
    (by decide) (by decide) (by decide) (by decide) (by decide) (by decide)
    (by decide) (by decide) (by decide) (by decide) (by decide)
